import Mathlib

/-!
Shallow embedding of `src/pex/distribution_target.py` (classes
`DistributionTarget` and `DistributionTargets`), together with theorems
checking the natural-language specification against it.

External collaborators (`pex/interpreter.py`, `pex/platforms.py`,
`pex/pep_508.py`, `pex/orderedset.py`) are not part of the excerpt; where
a definition stands in for one of them it is marked `Modelled from the
spec:` in its doc comment.
-/

namespace Pex

/-- The path separator `os.sep`; on POSIX it is the single character slash. -/
def osSep : Char := '/'

/-- Modelled from the spec: a `Platform` (pex/platforms.py is not in the
excerpt) is "an opaque, string-renderable, hashable value type representing
(operating system/ABI, architecture, interpreter ABI, version)". We keep the
four components as strings. -/
structure Platform where
  plat : String
  impl : String
  version : String
  abi : String
deriving DecidableEq, Repr, Hashable

/-- Modelled from the spec: the canonical string form of a platform joins its
four components (pex/platforms.py is not in the excerpt). -/
def Platform.str (p : Platform) : String :=
  p.plat ++ "-" ++ p.impl ++ "-" ++ p.version ++ "-" ++ p.abi

/-- Modelled from the spec: a well-formed platform's four components are
tag-like identifiers and contain no path separator character (the spec
asserts `identityLabel()` never contains one, which presumes this of the
platform's canonical string form). -/
def Platform.WellFormed (p : Platform) : Prop :=
  osSep ∉ p.plat.data ∧ osSep ∉ p.impl.data ∧ osSep ∉ p.version.data ∧
    osSep ∉ p.abi.data

instance (p : Platform) : Decidable p.WellFormed := by
  unfold Platform.WellFormed; infer_instance

/-- Modelled from the spec: an interpreter handle (pex/interpreter.py is not
in the excerpt) exposes "executable path, version string, a marker-evaluation
environment snapshot, an ordered tag table, and the set of platforms it
natively supports". We keep the fields the embedded methods consult:
`binary`, `supported_platforms` and the recorded marker environment
(`identity.env_markers`), the latter as an association list of entries. -/
structure PythonInterpreter where
  binary : String
  supported_platforms : List Platform
  env_markers : List (String × String)
deriving DecidableEq, Repr, Hashable

/-- Modelled from the spec: the ambient local runtime returned by the
process-wide cached lookup `PythonInterpreter.get()` (pex/interpreter.py is
not in the excerpt). A fixed concrete handle stands in for the current
machine's runtime; no theorem depends on its particular field values. -/
def PythonInterpreter.get : PythonInterpreter :=
  { binary := "/usr/bin/python3.8"
    supported_platforms := [⟨"linux_x86_64", "cp", "38", "cp38"⟩]
    env_markers := [("os_name", "posix"), ("sys_platform", "linux")] }

/-- A marker-evaluation environment as a dictionary (total lookup map),
matching Python's `dict` passed to `Marker.evaluate`. -/
def Dict : Type := String → Option String

/-- `MarkerEnvironment.as_dict`: view the recorded association list as a
dictionary (first entry for a key wins; the recorded environments have
distinct keys). -/
def asDict (entries : List (String × String)) : Dict :=
  fun k => (entries.find? (fun kv => kv.1 = k)).map (·.2)

/-- Python's `environment[key] = value` dictionary update. -/
def dictSet (d : Dict) (key value : String) : Dict :=
  fun k => if k = key then some value else d k

/-- Modelled from the spec: `MarkerEnvironment.from_platform` (pex/pep_508.py
is not in the excerpt) synthesizes "a marker-evaluation environment from the
declared platform alone (without running on that platform)". -/
def MarkerEnvironment.from_platform (p : Platform) : Dict :=
  asDict [("sys_platform", p.plat), ("implementation_name", p.impl),
          ("python_version", p.version), ("platform_python_implementation", p.abi)]

/-- Modelled from the spec: a requirement "exposes an optional marker
expression", and the marker collaborator, "given an environment mapping and a
marker expression, returns a boolean". A marker is thus embedded as a boolean
function of the environment dictionary. -/
structure Requirement where
  marker : Option (Dict → Bool)

/-- The two construction-time errors of `DistributionTarget`
(`AmbiguousTargetError` and `ManylinuxOutOfContextError`, the spec's
`HintOutOfContextError`). -/
inductive TargetError where
  | ambiguousTargetError
  | manylinuxOutOfContextError
deriving DecidableEq, Repr

/-- The state of a constructed `DistributionTarget`: the three fields
`self._interpreter`, `self._platform`, `self._manylinux` assigned at the end
of `__init__`. -/
structure DistributionTarget where
  _interpreter : Option PythonInterpreter
  _platform : Option Platform
  _manylinux : Option String
deriving DecidableEq, Repr, Hashable

namespace DistributionTarget

/-- Python truthiness of an `Optional[str]`: `None` and the empty string are
falsy. -/
def truthyStr : Option String → Bool
  | none => false
  | some s => !(s == "")

/-- `DistributionTarget.__init__(interpreter, platform, manylinux)`:
raises `AmbiguousTargetError` when both `interpreter` and `platform` are
truthy, defaults `interpreter` to `PythonInterpreter.get()` when both are
falsy, raises `ManylinuxOutOfContextError` when `manylinux` is truthy and
`platform` falsy, and otherwise stores the three fields. -/
def init (interpreter : Option PythonInterpreter) (platform : Option Platform)
    (manylinux : Option String) : Except TargetError DistributionTarget :=
  if interpreter.isSome && platform.isSome then
    .error .ambiguousTargetError
  else
    let interpreter :=
      if !interpreter.isSome && !platform.isSome then some PythonInterpreter.get
      else interpreter
    if truthyStr manylinux && !platform.isSome then
      .error .manylinuxOutOfContextError
    else
      .ok ⟨interpreter, platform, manylinux⟩

/-- `DistributionTarget.current()`: the target `cls()` constructs (its
`__init__` call succeeds and defaults the interpreter to the ambient
runtime). -/
def current : DistributionTarget :=
  ⟨some PythonInterpreter.get, none, none⟩

/-- `DistributionTarget.for_interpreter(interpreter)`: the target
`cls(interpreter=interpreter)` constructs. -/
def for_interpreter (interpreter : PythonInterpreter) : DistributionTarget :=
  ⟨some interpreter, none, none⟩

/-- `DistributionTarget.for_platform(platform, manylinux)`: the target
`cls(platform=platform, manylinux=manylinux)` constructs. -/
def for_platform (platform : Platform) (manylinux : Option String) :
    DistributionTarget :=
  ⟨none, some platform, manylinux⟩

/-- `is_platform` property. -/
def is_platform (t : DistributionTarget) : Bool := t._platform.isSome

/-- `is_interpreter` property. -/
def is_interpreter (t : DistributionTarget) : Bool := t._interpreter.isSome

/-- `get_interpreter()`: `self._interpreter or PythonInterpreter.get()`. -/
def get_interpreter (t : DistributionTarget) : PythonInterpreter :=
  t._interpreter.getD PythonInterpreter.get

/-- `_tup()`: the pair `(self._interpreter, self._platform)` that drives
equality and hashing (the manylinux field is deliberately absent). -/
def tup (t : DistributionTarget) : Option PythonInterpreter × Option Platform :=
  (t._interpreter, t._platform)

/-- `is_foreign` property: `False` for interpreter targets, else whether
`self._platform` is absent from `self.get_interpreter().supported_platforms`
(for a post-construction platform target the interpreter field is `None`, so
`get_interpreter()` is the ambient runtime). The both-`None` case — which
construction rules out — mirrors Python's `None not in [...]`, which is
true over a list of platforms. -/
def is_foreign (t : DistributionTarget) : Bool :=
  if t.is_interpreter then false
  else
    match t._platform with
    | some p => !(decide (p ∈ t.get_interpreter.supported_platforms))
    | none => true

/-- `requirement_applies(requirement, extras)`: `True` for a marker-less
requirement; otherwise evaluate the marker over the target's environment
(synthesized from the platform, or the interpreter's recorded one) once per
candidate extra — the given extras if truthy, else the single synthetic empty
extra — and report whether any evaluation succeeded. -/
def requirement_applies (t : DistributionTarget) (requirement : Requirement)
    (extras : Option (List String)) : Option Bool :=
  match requirement.marker with
  | none => some true
  | some marker =>
    let marker_environment : Dict :=
      match t._platform with
      | some p => MarkerEnvironment.from_platform p
      | none => asDict t.get_interpreter.env_markers
    let extrasList :=
      match extras with
      | none => [""]
      | some es => if es.isEmpty then [""] else es
    some (extrasList.any fun extra =>
      marker (dictSet marker_environment "extra" extra))

/-- `binary.replace(os.sep, ".")`: `os.sep` is a single character, so the
replacement is a per-character map. -/
def replaceSep (s : String) : String :=
  ⟨s.data.map fun c => if c = osSep then '.' else c⟩

/-- `.lstrip(".")`: drop the leading dot characters. -/
def lstripDot (s : String) : String :=
  ⟨s.data.dropWhile (· == '.')⟩

/-- `id` property: for interpreter targets, the interpreter's binary path
with separators replaced by dots and leading dots stripped; for platform
targets, `str(self._platform)` (Python renders the unreachable
post-construction `None` platform as the string "None"). -/
def id (t : DistributionTarget) : String :=
  if t.is_interpreter then
    lstripDot (replaceSep t.get_interpreter.binary)
  else
    match t._platform with
    | some p => p.str
    | none => "None"

end DistributionTarget

/-- The result of Python's `__eq__` protocol: a boolean, or `NotImplemented`
to let the interpreter try the reflected operation. -/
inductive EqResult where
  | implemented (b : Bool)
  | notImplemented
deriving DecidableEq, Repr

/-- The possible runtime shapes of the `other` argument of
`DistributionTarget.__eq__`: an object whose exact type is
`DistributionTarget`, an instance of a strict subclass of it, or any other
object. -/
inductive PyValue where
  | target (t : DistributionTarget)
  | targetSubclass (t : DistributionTarget)
  | nonTarget
deriving Repr

/-- `DistributionTarget.__eq__(self, other)`: `NotImplemented` unless
`type(other) is DistributionTarget` exactly, else structural comparison of
the `_tup()` pairs. -/
def DistributionTarget.pyEq (self : DistributionTarget) : PyValue → EqResult
  | .target t => .implemented (decide (self.tup = t.tup))
  | .targetSubclass _ => .notImplemented
  | .nonTarget => .notImplemented

/-- `DistributionTarget.__hash__(self)`: `hash(self._tup())`, a fixed
function of the `(interpreter, platform)` pair. -/
def DistributionTarget.pyHash (t : DistributionTarget) : UInt64 :=
  hash t.tup

/-- A sample interpreter handle used to instantiate witnesses. -/
def sampleInterpreter : PythonInterpreter :=
  { binary := "/opt/py/bin/python3.9"
    supported_platforms := []
    env_markers := [("os_name", "posix")] }

/-- A second, distinct sample interpreter handle used to instantiate
witnesses. -/
def sampleInterpreterB : PythonInterpreter :=
  { binary := "/opt/py/bin/python3.10"
    supported_platforms := []
    env_markers := [("os_name", "posix")] }

/-- A sample platform used to instantiate witnesses. -/
def samplePlatform : Platform :=
  ⟨"manylinux2014_x86_64", "cp", "39", "cp39"⟩

/-- A sample marker expression used to instantiate witnesses: it tests
whether the active extra is the string "x". -/
def sampleMarker : Dict → Bool :=
  fun d => d "extra" == some "x"

/-- The `DistributionTargets` configuration value: requested interpreters,
requested platforms (a `none` entry meaning "the current platform"), and the
assumed manylinux hint. -/
structure DistributionTargets where
  interpreters : List PythonInterpreter
  platforms : List (Option Platform)
  assume_manylinux : Option String
deriving DecidableEq, Repr

namespace DistributionTargets

/-- The sequence the generator `iter_targets` inside
`DistributionTargets.unique_targets` yields, in order: the single current
target when nothing is requested; else one target per requested interpreter,
then per platform entry either the current target (`None` entry with no
interpreters), nothing (`None` entry with interpreters), or a platform
target carrying `assume_manylinux`. -/
def iter_targets (s : DistributionTargets) : List DistributionTarget :=
  if s.interpreters.isEmpty && s.platforms.isEmpty then
    [DistributionTarget.current]
  else
    s.interpreters.map DistributionTarget.for_interpreter ++
      s.platforms.filterMap (fun platform =>
        match platform with
        | none =>
          if s.interpreters.isEmpty then some DistributionTarget.current
          else none
        | some p => some (DistributionTarget.for_platform p s.assume_manylinux))

/-- Modelled from the spec: one step of `OrderedSet.add` (pex/orderedset.py
is not in the excerpt) — append the element unless one comparing equal under
`DistributionTarget.__eq__`, i.e. with an equal `_tup()`, is already
present. -/
def orderedSetAdd (acc : List DistributionTarget) (t : DistributionTarget) :
    List DistributionTarget :=
  if acc.any (fun u => u.tup == t.tup) then acc else acc ++ [t]

/-- `unique_targets()`: `OrderedSet(iter_targets())`, i.e. the generated
sequence folded through `OrderedSet.add`. -/
def unique_targets (s : DistributionTargets) : List DistributionTarget :=
  s.iter_targets.foldl orderedSetAdd []

end DistributionTargets

/-- Remove the later duplicates of a sequence, keeping the first occurrence,
where elements are compared through `key`; `seen` carries the keys already
emitted. -/
def keepFirstBy {α β : Type} [DecidableEq β] (key : α → β) (seen : List β) :
    List α → List α
  | [] => []
  | x :: xs =>
    if key x ∈ seen then keepFirstBy key seen xs
    else x :: keepFirstBy key (seen ++ [key x]) xs

/-- The generation sequence exactly as the specification's words describe
it: a single current-runtime target when both sequences are empty; otherwise
one interpreter target per `interpreters` entry in order, followed, for each
`platforms` entry in order, by a current-runtime target if the entry is
`none` and `interpreters` is empty, nothing if the entry is `none` and
`interpreters` is non-empty, and a platform target carrying the assumed hint
if the entry is a concrete platform. -/
def specTargets (s : DistributionTargets) : List DistributionTarget :=
  if s.interpreters = [] ∧ s.platforms = [] then [DistributionTarget.current]
  else
    s.interpreters.map DistributionTarget.for_interpreter ++
      (s.platforms.map (fun entry =>
        match entry with
        | none =>
          if s.interpreters = [] then [DistributionTarget.current] else []
        | some p => [DistributionTarget.for_platform p s.assume_manylinux])).flatten

/-- The expansion operation as the specification's words describe it: the
generation sequence with duplicates (by the structural equality of §3, an
equal `(interpreter, platform)` pair) removed, keeping the first
occurrence. -/
def specExpansion (s : DistributionTargets) : List DistributionTarget :=
  keepFirstBy DistributionTarget.tup [] (specTargets s)

/-- Exactly one of the interpreter and platform fields is present (spec
invariant I1). -/
def DistributionTarget.ExactlyOne (t : DistributionTarget) : Prop :=
  t._interpreter.isSome ≠ t._platform.isSome

/-- A well-formed target: spec invariant I1 together with well-formedness of
the declared platform, if any. -/
def DistributionTarget.WellFormed (t : DistributionTarget) : Prop :=
  t.ExactlyOne ∧
    (match t._platform with
      | some p => p.WellFormed
      | none => True)

/-- The classmethod constructors agree with `__init__` on their argument
patterns (shared bridging lemma, not itself a claim theorem). -/
theorem init_classmethods :
    DistributionTarget.init none none none = .ok DistributionTarget.current ∧
    (∀ i, DistributionTarget.init (some i) none none =
        .ok (DistributionTarget.for_interpreter i)) ∧
    (∀ p m, DistributionTarget.init none (some p) m =
        .ok (DistributionTarget.for_platform p m)) := by
  refine ⟨rfl, fun i => rfl, fun p m => ?_⟩
  simp [DistributionTarget.init, DistributionTarget.for_platform]

/-- C3: every successful construction through `__init__` (hence through each
classmethod, which factors through it) yields a target with exactly one of
the interpreter and platform fields present, and when neither is supplied the
interpreter defaults to the ambient local runtime. -/
theorem construction_exactly_one :
    (∀ i p m t, DistributionTarget.init i p m = .ok t → t.ExactlyOne) ∧
    (∀ m t, DistributionTarget.init none none m = .ok t →
        t._interpreter = some PythonInterpreter.get) ∧
    DistributionTarget.init none none none = .ok DistributionTarget.current ∧
    (∀ i, DistributionTarget.init (some i) none none =
        .ok (DistributionTarget.for_interpreter i)) ∧
    (∀ p m, DistributionTarget.init none (some p) m =
        .ok (DistributionTarget.for_platform p m)) := by
  refine ⟨?_, ?_, init_classmethods.1, init_classmethods.2.1, init_classmethods.2.2⟩
  · intro i p m t h
    unfold DistributionTarget.init at h
    cases i <;> cases p
    · simp at h
      split at h
      · simp at h
      · simp at h; subst h; simp [DistributionTarget.ExactlyOne]
    · simp at h; subst h; simp [DistributionTarget.ExactlyOne]
    · simp at h
      split at h
      · simp at h
      · simp at h; subst h; simp [DistributionTarget.ExactlyOne]
    · simp at h
  · intro m t h
    unfold DistributionTarget.init at h
    simp at h
    split at h
    · simp at h
    · simp at h; subst h; rfl

/-- C3 witness: constructing with no interpreter and no platform succeeds
with the ambient runtime, and the result satisfies I1. -/
theorem construction_exactly_one_witness :
    DistributionTarget.current.ExactlyOne ∧
    DistributionTarget.current._interpreter = some PythonInterpreter.get :=
  ⟨construction_exactly_one.1 none none none DistributionTarget.current
      construction_exactly_one.2.2.1,
   construction_exactly_one.2.1 none DistributionTarget.current
      construction_exactly_one.2.2.1⟩

/-- C4: `__init__` raises `AmbiguousTargetError` exactly when both an
interpreter and a platform are supplied; in that case no target value is
produced. -/
theorem ambiguous_iff_both :
    ∀ i p m, DistributionTarget.init i p m = .error .ambiguousTargetError ↔
      (i.isSome = true ∧ p.isSome = true) := by
  intro i p m
  unfold DistributionTarget.init
  cases i <;> cases p <;> simp <;> split <;> simp_all

/-- C5 counterexample: the empty string is a supplied hint value without a
platform, yet construction raises nothing (truthiness, not presence, is
tested), so the claim as stated fails at `manylinux = some ""`. -/
theorem manylinux_error_counterexample :
    (some ("" : String)).isSome = true ∧
    DistributionTarget.init none none (some "") ≠
      .error .manylinuxOutOfContextError := by
  refine ⟨rfl, ?_⟩
  intro h
  simp [DistributionTarget.init, DistributionTarget.truthyStr] at h

/-- C5 amended: `__init__` raises `ManylinuxOutOfContextError` exactly when a
truthy (non-empty) manylinux hint is supplied and a platform is not,
regardless of whether an interpreter is supplied. -/
theorem manylinux_error_iff :
    ∀ i p m, DistributionTarget.init i p m = .error .manylinuxOutOfContextError ↔
      (DistributionTarget.truthyStr m = true ∧ p = none) := by
  intro i p m
  unfold DistributionTarget.init
  cases i <;> cases p <;> simp

/-- C9: constructing with the empty-string hint and no platform raises no
error: the hint check tests truthiness, so the empty string passes as if
absent, and the result is an interpreter-based target (the ambient runtime
when no interpreter was supplied) that stores the empty-string hint. -/
theorem empty_manylinux_accepted :
    DistributionTarget.init none none (some "") =
      .ok ⟨some PythonInterpreter.get, none, some ""⟩ ∧
    (∀ i, DistributionTarget.init (some i) none (some "") =
      .ok ⟨some i, none, some ""⟩) := by
  exact ⟨rfl, fun i => rfl⟩

/-- C6: equality and hash are structural over the `(interpreter, platform)`
pair only: equal pairs compare equal and hash equal whatever the manylinux
hints, and targets built from different interpreter handles compare
unequal. -/
theorem eq_hash_structural :
    ∀ t u : DistributionTarget,
      (t._interpreter = u._interpreter → t._platform = u._platform →
        t.pyEq (.target u) = .implemented true ∧ t.pyHash = u.pyHash) ∧
      (∀ i j : PythonInterpreter, i ≠ j →
        (DistributionTarget.for_interpreter i).pyEq
          (.target (DistributionTarget.for_interpreter j)) =
            .implemented false) := by
  intro t u
  constructor
  · intro hi hp
    have htup : t.tup = u.tup := by simp [DistributionTarget.tup, hi, hp]
    exact ⟨by simp [DistributionTarget.pyEq, htup],
           by simp [DistributionTarget.pyHash, htup]⟩
  · intro i j hij
    simp [DistributionTarget.pyEq, DistributionTarget.tup,
      DistributionTarget.for_interpreter, hij]

/-- C6 witness: two platform targets for the same platform with different
hints compare equal and hash equal, and targets for two distinct sample
interpreters compare unequal. -/
theorem eq_hash_structural_witness :
    ((DistributionTarget.for_platform samplePlatform (some "manylinux1")).pyEq
        (.target (DistributionTarget.for_platform samplePlatform none)) =
          .implemented true ∧
      (DistributionTarget.for_platform samplePlatform (some "manylinux1")).pyHash =
        (DistributionTarget.for_platform samplePlatform none).pyHash) ∧
    (DistributionTarget.for_interpreter sampleInterpreter).pyEq
        (.target (DistributionTarget.for_interpreter sampleInterpreterB)) =
          .implemented false :=
  ⟨(eq_hash_structural _ _).1 rfl rfl,
   (eq_hash_structural (DistributionTarget.for_interpreter sampleInterpreter)
      (DistributionTarget.for_interpreter sampleInterpreterB)).2
        sampleInterpreter sampleInterpreterB (by decide)⟩

/-- C10: `__eq__` is strict about type: for every operand whose exact runtime
type is not `DistributionTarget` — a strict-subclass instance or any other
object — it returns `NotImplemented`, never a boolean verdict. -/
theorem pyEq_type_strict :
    ∀ (self other : DistributionTarget),
      self.pyEq (.targetSubclass other) = .notImplemented ∧
      self.pyEq .nonTarget = .notImplemented := by
  intro self other
  exact ⟨rfl, rfl⟩

/-- C7: for a well-formed target, `is_foreign` is true exactly when the
target is platform-based and its declared platform is not among the platforms
the ambient local runtime natively supports; a current-runtime target reports
false. -/
theorem is_foreign_iff :
    ∀ t : DistributionTarget, t.ExactlyOne →
      ((t.is_foreign = true ↔
          ∃ p, t._platform = some p ∧
            p ∉ PythonInterpreter.get.supported_platforms) ∧
        DistributionTarget.current.is_foreign = false) := by
  intro t h
  refine ⟨?_, rfl⟩
  rcases hp : t._platform with _ | p
  · have hi : t._interpreter.isSome = true := by
      simp [DistributionTarget.ExactlyOne, hp] at h
      simpa [Option.isSome_iff_ne_none] using h
    simp [DistributionTarget.is_foreign, DistributionTarget.is_interpreter, hi, hp]
  · have hi : t._interpreter = none := by
      simp [DistributionTarget.ExactlyOne, hp] at h
      cases hI : t._interpreter <;> simp_all
    simp [DistributionTarget.is_foreign, DistributionTarget.is_interpreter, hi, hp,
      DistributionTarget.get_interpreter]

/-- C7 witness: the current-runtime target satisfies I1 and is not
foreign. -/
theorem is_foreign_iff_witness :
    DistributionTarget.current.is_foreign = false :=
  (is_foreign_iff DistributionTarget.current
    (by simp [DistributionTarget.ExactlyOne, DistributionTarget.current])).2

/-- C8: for a well-formed target, `id` contains no path separator character;
it is the interpreter's binary path with separators replaced by dots and
leading dots stripped for interpreter targets, and the platform's canonical
string form for platform targets. -/
theorem id_no_separator :
    ∀ t : DistributionTarget, t.WellFormed →
      (osSep ∉ t.id.data ∧
        (t.is_interpreter = true →
          t.id = DistributionTarget.lstripDot
            (DistributionTarget.replaceSep t.get_interpreter.binary)) ∧
        (∀ p, t._platform = some p → t.id = p.str)) := by
  intro t h
  obtain ⟨h1, h2⟩ := h
  rcases hp : t._platform with _ | p
  · have hi : t.is_interpreter = true := by
      simp [DistributionTarget.ExactlyOne, hp] at h1
      simpa [DistributionTarget.is_interpreter, Option.isSome_iff_ne_none] using h1
    have hid : t.id = DistributionTarget.lstripDot
        (DistributionTarget.replaceSep t.get_interpreter.binary) := by
      simp [DistributionTarget.id, hi]
    refine ⟨?_, fun _ => hid, by simp [hp]⟩
    rw [hid]
    intro hmem
    have hmem2 : osSep ∈ (DistributionTarget.replaceSep t.get_interpreter.binary).data :=
      (List.dropWhile_sublist _).mem hmem
    simp only [DistributionTarget.replaceSep, List.mem_map] at hmem2
    obtain ⟨c, _, hc⟩ := hmem2
    by_cases hcs : c = osSep
    · simp [hcs, osSep] at hc
    · simp [hcs] at hc
  · have hi : t.is_interpreter = false := by
      simp [DistributionTarget.ExactlyOne, hp] at h1
      cases hI : t._interpreter <;> simp_all [DistributionTarget.is_interpreter]
    have hid : t.id = p.str := by
      simp [DistributionTarget.id, hi, hp]
    rw [hp] at h2
    obtain ⟨w1, w2, w3, w4⟩ := h2
    refine ⟨?_, ?_, ?_⟩
    · rw [hid]
      simp [Platform.str, String.data_append]
      refine ⟨w1, ?_, w2, ?_, w3, ?_, w4⟩ <;> simp [osSep]
    · intro hcontra
      rw [hi] at hcontra
      exact absurd hcontra (by simp)
    · intro q hq
      injection hq with hq
      rw [hid, hq]

/-- C8 witness: the identity label of the sample platform target contains no
path separator. -/
theorem id_no_separator_witness :
    osSep ∉ (DistributionTarget.for_platform samplePlatform none).id.data :=
  (id_no_separator (DistributionTarget.for_platform samplePlatform none)
    ⟨by simp [DistributionTarget.ExactlyOne, DistributionTarget.for_platform],
     by simp [DistributionTarget.for_platform]; decide⟩).1

/-- C2: `requirement_applies` never returns the unknown value: it is `true`
for a marker-less requirement, and otherwise `true` exactly when the marker
evaluates to true in the target's environment for some candidate extra — the
given extras when non-empty, else the single synthetic empty extra. -/
theorem requirement_applies_spec :
    ∀ (t : DistributionTarget) (r : Requirement) (extras : Option (List String)),
      t.requirement_applies r extras ≠ none ∧
      (r.marker = none → t.requirement_applies r extras = some true) ∧
      (∀ m, r.marker = some m →
        (t.requirement_applies r extras = some true ↔
          ∃ e ∈ (match extras with
                  | some es => if es = [] then [""] else es
                  | none => [""]),
            m (dictSet
                (match t._platform with
                  | some p => MarkerEnvironment.from_platform p
                  | none => asDict t.get_interpreter.env_markers)
                "extra" e) = true)) := by
  intro t r extras
  rcases r with ⟨_ | m⟩
  · exact ⟨by simp [DistributionTarget.requirement_applies],
      fun _ => by simp [DistributionTarget.requirement_applies],
      fun m hm => by simp at hm⟩
  · refine ⟨by simp [DistributionTarget.requirement_applies],
      fun hnone => by simp at hnone, ?_⟩
    intro m2 hm
    have hm2 : m2 = m := by simpa using hm.symm
    subst hm2
    unfold DistributionTarget.requirement_applies
    simp only [Option.some.injEq, List.any_eq_true]
    constructor
    · intro hx
      obtain ⟨e, he, hev⟩ := hx
      refine ⟨e, ?_, hev⟩
      rcases extras with _ | es
      · simpa using he
      · rcases es with _ | ⟨a, as⟩ <;> simpa using he
    · intro hx
      obtain ⟨e, he, hev⟩ := hx
      refine ⟨e, ?_, hev⟩
      rcases extras with _ | es
      · simpa using he
      · rcases es with _ | ⟨a, as⟩ <;> simpa using he

/-- C2 witness: a marker-less requirement applies to the sample interpreter
target, and a requirement whose marker demands the extra "x" applies when the
extras include "x". -/
theorem requirement_applies_spec_witness :
    (DistributionTarget.for_interpreter sampleInterpreter).requirement_applies
        ⟨none⟩ none = some true ∧
    (DistributionTarget.for_interpreter sampleInterpreter).requirement_applies
        ⟨some sampleMarker⟩ (some ["x"]) = some true :=
  ⟨(requirement_applies_spec (DistributionTarget.for_interpreter sampleInterpreter)
      ⟨none⟩ none).2.1 rfl,
   ((requirement_applies_spec (DistributionTarget.for_interpreter sampleInterpreter)
      ⟨some sampleMarker⟩ (some ["x"])).2.2 sampleMarker rfl).mpr
        ⟨"x", by simp, by simp [sampleMarker, dictSet]⟩⟩

/-- The `OrderedSet.add` membership test agrees with key membership of the
accumulated tuples (shared helper lemma). -/
theorem orderedSetAdd_mem (acc : List DistributionTarget) (x : DistributionTarget) :
    (acc.any fun u => u.tup == x.tup) = true ↔
      x.tup ∈ acc.map DistributionTarget.tup := by
  constructor
  · intro h
    obtain ⟨u, hu, hb⟩ := List.any_eq_true.mp h
    have he : u.tup = x.tup := by simpa using hb
    exact List.mem_map.mpr ⟨u, hu, he⟩
  · intro h
    obtain ⟨u, hu, he⟩ := List.mem_map.mp h
    refine List.any_eq_true.mpr ⟨u, hu, ?_⟩
    simpa using he

/-- Folding `OrderedSet.add` from any accumulator appends the first-kept
deduplication of the remaining sequence (shared helper lemma). -/
theorem foldl_orderedSetAdd :
    ∀ (l acc : List DistributionTarget),
      l.foldl DistributionTargets.orderedSetAdd acc =
        acc ++ keepFirstBy DistributionTarget.tup
          (acc.map DistributionTarget.tup) l := by
  intro l
  induction l with
  | nil => intro acc; simp [keepFirstBy]
  | cons x xs ih =>
    intro acc
    rw [List.foldl_cons]
    by_cases hmem : x.tup ∈ acc.map DistributionTarget.tup
    · have hadd : DistributionTargets.orderedSetAdd acc x = acc := by
        unfold DistributionTargets.orderedSetAdd
        rw [if_pos ((orderedSetAdd_mem acc x).mpr hmem)]
      rw [hadd, ih acc]
      simp only [keepFirstBy]
      rw [if_pos hmem]
    · have hadd : DistributionTargets.orderedSetAdd acc x = acc ++ [x] := by
        unfold DistributionTargets.orderedSetAdd
        rw [if_neg (fun hc => hmem ((orderedSetAdd_mem acc x).mp hc))]
      rw [hadd, ih (acc ++ [x])]
      simp only [keepFirstBy]
      rw [if_neg hmem]
      simp [List.map_append]

/-- Every element kept by `keepFirstBy` has a key outside `seen` (shared
helper lemma). -/
theorem keepFirstBy_mem_key {α β : Type} [DecidableEq β] (key : α → β) :
    ∀ (l : List α) (seen : List β) (y : α),
      y ∈ keepFirstBy key seen l → key y ∉ seen := by
  intro l
  induction l with
  | nil => intro seen y h; simp [keepFirstBy] at h
  | cons x xs ih =>
    intro seen y h
    simp only [keepFirstBy] at h
    by_cases hx : key x ∈ seen
    · rw [if_pos hx] at h
      exact ih seen y h
    · rw [if_neg hx] at h
      rcases List.mem_cons.mp h with h1 | h1
      · subst h1; exact hx
      · intro hc
        exact ih (seen ++ [key x]) y h1 (List.mem_append_left _ hc)

/-- The output of `keepFirstBy` is duplicate-free in its keys (shared helper
lemma). -/
theorem keepFirstBy_pairwise {α β : Type} [DecidableEq β] (key : α → β) :
    ∀ (l : List α) (seen : List β),
      (keepFirstBy key seen l).Pairwise (fun a b => key a ≠ key b) := by
  intro l
  induction l with
  | nil => intro seen; simp [keepFirstBy]
  | cons x xs ih =>
    intro seen
    simp only [keepFirstBy]
    by_cases hx : key x ∈ seen
    · rw [if_pos hx]; exact ih seen
    · rw [if_neg hx]
      refine List.Pairwise.cons ?_ (ih (seen ++ [key x]))
      intro y hy hc
      have hnot := keepFirstBy_mem_key key xs (seen ++ [key x]) y hy
      exact hnot (by rw [← hc]; exact List.mem_append_right _ (by simp))

/-- `filterMap` is the flattening of the per-entry option lists (shared
helper lemma). -/
theorem filterMap_toList_join {α β : Type} (f : α → Option β) :
    ∀ l : List α, l.filterMap f = (l.map fun a => (f a).toList).flatten := by
  intro l
  induction l with
  | nil => rfl
  | cons x xs ih =>
    cases hf : f x <;> simp [List.filterMap_cons, hf, ih]

/-- The generator inside `unique_targets` yields exactly the sequence the
specification describes (shared helper lemma). -/
theorem iter_targets_eq_specTargets (s : DistributionTargets) :
    s.iter_targets = specTargets s := by
  unfold DistributionTargets.iter_targets specTargets
  have hcond : (s.interpreters.isEmpty && s.platforms.isEmpty) = true ↔
      (s.interpreters = [] ∧ s.platforms = []) := by
    simp [List.isEmpty_iff]
  by_cases hc : s.interpreters = [] ∧ s.platforms = []
  · rw [if_pos (hcond.mpr hc), if_pos hc]
  · rw [if_neg (fun h => hc (hcond.mp h)), if_neg hc, filterMap_toList_join]
    congr 2
    refine List.map_congr_left ?_
    intro entry hmem
    cases entry
    · by_cases h1 : s.interpreters = [] <;> simp [h1, List.isEmpty_iff]
    · simp

/-- C1: `unique_targets` returns exactly the specification's expansion — the
described generation sequence with structural duplicates removed, first
occurrence kept — and its result is duplicate-free under structural
equality. -/
theorem unique_targets_spec :
    ∀ s : DistributionTargets,
      s.unique_targets = specExpansion s ∧
      s.unique_targets.Pairwise (fun a b => a.tup ≠ b.tup) := by
  intro s
  have h1 : s.unique_targets =
      keepFirstBy DistributionTarget.tup [] s.iter_targets := by
    unfold DistributionTargets.unique_targets
    rw [foldl_orderedSetAdd]
    simp
  refine ⟨?_, ?_⟩
  · rw [h1, iter_targets_eq_specTargets]
    rfl
  · rw [h1]
    exact keepFirstBy_pairwise _ _ _

end Pex
